import Mathlib

/-!
# addsvc: the business service, its endpoints and its two transports

A shallow embedding of `pkg/addservice/service.go`, `pkg/addendpoint/set.go`,
`pkg/addtransport/http.go` and `pkg/addtransport/grpc.go`.

Conventions of the embedding

* Go `int` is the 64-bit two's complement integer of the platforms the service
  is built for: a value is an `Int` inside `[-2^63, 2^63-1]` (`IsInt`), and
  every arithmetic operation of the source is followed by `wrapInt`.
* Go `error` is an interface value compared by identity. `GoError` has one
  constructor for each of the three package-level sentinels of `addservice`
  and one constructor for every other error value; a nil error is `none`.
* Go `string` is a Lean `String`, and `len` is its number of bytes
  (`String.utf8ByteSize`).
* A run-time panic (a failed type assertion, a nil dereference) is `none` of
  the outer `Option`.
-/

namespace Addsvc

/-! ## Go values -/

/-- The `context.Context` handed down the call chain. -/
structure Context where
  deadline : Option Nat
  cancelled : Bool
  values : List (String × String)
deriving DecidableEq, Repr

/-- The empty context, `context.Background()`. -/
def Context.background : Context := ⟨none, false, []⟩

/-- Smallest value of a 64-bit Go `int`. -/
def minInt : Int := -(2 ^ 63)

/-- Largest value of a 64-bit Go `int`. -/
def maxInt : Int := 2 ^ 63 - 1

/-- The values a 64-bit Go `int` can hold. -/
def IsInt (x : Int) : Prop := minInt ≤ x ∧ x ≤ maxInt

instance (x : Int) : Decidable (IsInt x) := by
  unfold IsInt; infer_instance

/-- Two's complement wrap-around of a mathematical result into a Go `int`. -/
def wrapInt (x : Int) : Int := (x + 2 ^ 63) % 2 ^ 64 - 2 ^ 63

/-- Go `len` of a string: its length in bytes. -/
def len (s : String) : Int := (s.utf8ByteSize : Int)

/-- A non-nil Go `error` value. The three sentinels are the package-level
variables of `addservice`; `other msg` is any other error value, whose
`Error()` text is `msg`. Distinct constructors are distinct interface values,
so an `other` error is never equal to a sentinel, whatever its text. -/
inductive GoError where
  | ErrTwoZeroes
  | ErrIntOverflow
  | ErrMaxSizeExceeded
  | other (msg : String)
deriving DecidableEq, Repr

/-- The `Error()` method. -/
def GoError.Error : GoError → String
  | .ErrTwoZeroes => "can't sum two zeroes"
  | .ErrIntOverflow => "integer overflow"
  | .ErrMaxSizeExceeded => "result exceeds maximum size"
  | .other msg => msg

/-! ## pkg/addservice/service.go -/

/-- The package variable `intMax = 1<<31 - 1`. -/
def intMax : Int := 2 ^ 31 - 1

/-- The package variable `intMin = -(intMax + 1)`. -/
def intMin : Int := -(intMax + 1)

/-- The package variable `maxLen = 10`. -/
def maxLen : Int := 10

/-- The interface `Service`: any implementation of `Sum` and `Concat`. -/
structure Service where
  Sum : Context → Int → Int → Int × Option GoError
  Concat : Context → String → String → String × Option GoError

/-- The method `basicService.Sum`. -/
def basicService.Sum (_ctx : Context) (a b : Int) : Int × Option GoError :=
  if a = 0 ∧ b = 0 then
    (0, some GoError.ErrTwoZeroes)
  else if (b > 0 ∧ a > wrapInt (intMax - b)) ∨ (b < 0 ∧ a < wrapInt (intMin - b)) then
    (0, some GoError.ErrIntOverflow)
  else
    (wrapInt (a + b), none)

/-- The method `basicService.Concat`. The sum of two lengths is not wrapped:
two strings in memory never total `2^63` bytes. -/
def basicService.Concat (_ctx : Context) (a b : String) : String × Option GoError :=
  if len a + len b > maxLen then
    ("", some GoError.ErrMaxSizeExceeded)
  else
    (a ++ b, none)

/-- The constructor `NewBasicService`. -/
def NewBasicService : Service := ⟨basicService.Sum, basicService.Concat⟩

/-! ## pkg/addendpoint/set.go -/

/-- The struct `SumRequest`. -/
structure SumRequest where
  A : Int
  B : Int
deriving DecidableEq, Repr

/-- The struct `SumResponse`; `Err` is nil (`none`) on success. -/
structure SumResponse where
  V : Int
  Err : Option GoError
deriving DecidableEq, Repr

/-- The method `SumResponse.Failed`. -/
def SumResponse.Failed (r : SumResponse) : Option GoError := r.Err

/-- The struct `ConcatRequest`. -/
structure ConcatRequest where
  A : String
  B : String
deriving DecidableEq, Repr

/-- The struct `ConcatResponse`; `Err` is nil (`none`) on success. -/
structure ConcatResponse where
  V : String
  Err : Option GoError
deriving DecidableEq, Repr

/-- The method `ConcatResponse.Failed`. -/
def ConcatResponse.Failed (r : ConcatResponse) : Option GoError := r.Err

/-- The dynamic value behind the `interface{}` request of an endpoint. -/
inductive Request where
  | sum (r : SumRequest)
  | concat (r : ConcatRequest)
deriving DecidableEq, Repr

/-- The dynamic value behind the `interface{}` response of an endpoint. -/
inductive Response where
  | sum (r : SumResponse)
  | concat (r : ConcatResponse)
deriving DecidableEq, Repr

/-- The interface `endpoint.Failer`, which both response types implement. -/
def Response.Failed : Response → Option GoError
  | .sum r => r.Failed
  | .concat r => r.Failed

/-- The type `endpoint.Endpoint`: a response and an endpoint-level error, or a
panic (`none`). -/
abbrev Endpoint := Context → Request → Option (Response × Option GoError)

/-- The constructor `MakeSumEndpoint`. The type assertion `request.(SumRequest)`
panics on any other request. -/
def MakeSumEndpoint (s : Service) : Endpoint := fun ctx request =>
  match request with
  | .sum req =>
    let (v, err) := s.Sum ctx req.A req.B
    some (Response.sum ⟨v, err⟩, none)
  | _ => none

/-- The constructor `MakeConcatEndpoint`. The type assertion
`request.(ConcatRequest)` panics on any other request. -/
def MakeConcatEndpoint (s : Service) : Endpoint := fun ctx request =>
  match request with
  | .concat req =>
    let (v, err) := s.Concat ctx req.A req.B
    some (Response.concat ⟨v, err⟩, none)
  | _ => none

/-! ## pkg/addtransport/http.go -/

/-- A value of a JSON field. -/
inductive JSONValue where
  | num (n : Int)
  | str (s : String)
deriving DecidableEq, Repr

/-- A JSON object: its fields in order. -/
abbrev JSONObject := List (String × JSONValue)

/-- The `http.ResponseWriter`: the header map, the status line once it is
written, and the JSON documents written to the body so far. -/
structure ResponseWriter where
  header : List (String × String)
  status : Option Nat
  body : List JSONObject
deriving DecidableEq, Repr

/-- A writer nothing has been written to. -/
def ResponseWriter.fresh : ResponseWriter := ⟨[], none, []⟩

/-- The method `WriteHeader`: the first call fixes the status. -/
def ResponseWriter.WriteHeader (w : ResponseWriter) (code : Nat) : ResponseWriter :=
  match w.status with
  | none => { w with status := some code }
  | some _ => w

/-- The call `w.Header().Set(key, value)`. -/
def ResponseWriter.HeaderSet (w : ResponseWriter) (key value : String) : ResponseWriter :=
  { w with header := (w.header.filter (fun kv => kv.1 != key)) ++ [(key, value)] }

/-- The call `json.NewEncoder(w).Encode(v)` for a value whose JSON form is `o`:
one document is written to the body, which sends status 200 when no status
was written before. The write itself is taken to succeed. -/
def ResponseWriter.Encode (w : ResponseWriter) (o : JSONObject) : ResponseWriter :=
  { w with status := some (w.status.getD 200), body := w.body ++ [o] }

/-- The constant `http.StatusBadRequest`. -/
def StatusBadRequest : Nat := 400

/-- The constant `http.StatusInternalServerError`. -/
def StatusInternalServerError : Nat := 500

/-- The function `err2code`: a `switch` on the identity of the error value. -/
def err2code (err : Option GoError) : Nat :=
  match err with
  | some GoError.ErrTwoZeroes => StatusBadRequest
  | some GoError.ErrMaxSizeExceeded => StatusBadRequest
  | some GoError.ErrIntOverflow => StatusBadRequest
  | _ => StatusInternalServerError

/-- The struct `errorWrapper`. -/
structure errorWrapper where
  Error : String
deriving DecidableEq, Repr

/-- JSON form of `errorWrapper`, from its tag `json:"error"`. -/
def errorWrapper.toJSON (e : errorWrapper) : JSONObject := [("error", JSONValue.str e.Error)]

/-- JSON form of `SumResponse`: `V` is tagged `json:"v"`, `Err` is tagged
`json:"-"` and left out. -/
def SumResponse.toJSON (r : SumResponse) : JSONObject := [("v", JSONValue.num r.V)]

/-- JSON form of `ConcatResponse`: `V` is tagged `json:"v"`, `Err` is tagged
`json:"-"` and left out. -/
def ConcatResponse.toJSON (r : ConcatResponse) : JSONObject := [("v", JSONValue.str r.V)]

/-- JSON form of a response value. -/
def Response.toJSON : Response → JSONObject
  | .sum r => r.toJSON
  | .concat r => r.toJSON

/-- The function `errorEncoder`. A nil `err` panics at `err.Error()`. -/
def errorEncoder (_ctx : Context) (err : Option GoError) (w : ResponseWriter) :
    Option ResponseWriter :=
  match err with
  | none => none
  | some e => some ((w.WriteHeader (err2code err)).Encode (errorWrapper.toJSON ⟨e.Error⟩))

/-- The function `encodeHTTPGenericResponse`: the writer after the call and
the returned error. -/
def encodeHTTPGenericResponse (ctx : Context) (w : ResponseWriter) (response : Response) :
    Option (ResponseWriter × Option GoError) :=
  if response.Failed ≠ none then
    (errorEncoder ctx response.Failed w).map (fun w1 => (w1, none))
  else
    some ((w.HeaderSet "Content-Type" "application/json; charset=utf-8").Encode response.toJSON,
      none)

/-- The part of `*http.Request` the decoders read. -/
structure HTTPRequest where
  Body : String
deriving DecidableEq, Repr

/-- The dependency `encoding/json`, as the decoders use it: what
`json.NewDecoder(body).Decode(&req)` leaves in a zero `req`, and the text of
the error it returns (`none` for nil). The errors of that package and of `io`
are not values of `addservice`, so they enter `GoError` through `other`. -/
structure JSONDecoder where
  decodeSum : String → SumRequest × Option String
  decodeConcat : String → ConcatRequest × Option String

/-- The function `decodeHTTPSumRequest`. -/
def decodeHTTPSumRequest (json : JSONDecoder) (_ctx : Context) (r : HTTPRequest) :
    Request × Option GoError :=
  let (req, err) := json.decodeSum r.Body
  (Request.sum req, err.map GoError.other)

/-- The function `decodeHTTPConcatRequest`. -/
def decodeHTTPConcatRequest (json : JSONDecoder) (_ctx : Context) (r : HTTPRequest) :
    Request × Option GoError :=
  let (req, err) := json.decodeConcat r.Body
  (Request.concat req, err.map GoError.other)

/-- A decoder fixed on one body, used to run the decoders on a concrete input:
on the truncated body `{`, `encoding/json` returns `io.ErrUnexpectedEOF`
(`unexpected EOF`) and leaves the request zero. Other bodies are not modelled
and are given the same answer. -/
def truncatedBodyDecoder : JSONDecoder :=
  ⟨fun _ => (⟨0, 0⟩, some "unexpected EOF"), fun _ => (⟨"", ""⟩, some "unexpected EOF")⟩

/-! ## pkg/addtransport/grpc.go -/

/-- Modelled from the spec: the generated package `addsvc/pb` is not among the
sources. The spec gives the reply of the RPC method `Sum` as
`(v:int64, err:string)`. -/
structure pb.SumReply where
  V : Int
  Err : String
deriving DecidableEq, Repr

/-- Modelled from the spec: the generated package `addsvc/pb` is not among the
sources. The spec gives the reply of the RPC method `Concat` as
`(v:string, err:string)`. -/
structure pb.ConcatReply where
  V : String
  Err : String
deriving DecidableEq, Repr

/-- The function `err2str`. -/
def err2str (err : Option GoError) : String :=
  match err with
  | none => ""
  | some e => e.Error

/-- The function `encodeGRPCSumResponse`. The type assertion
`response.(addendpoint.SumResponse)` panics on any other response; the
conversion `int64(resp.V)` of a 64-bit `int` changes nothing. -/
def encodeGRPCSumResponse (_ctx : Context) (response : Response) :
    Option (pb.SumReply × Option GoError) :=
  match response with
  | .sum resp => some (⟨resp.V, err2str resp.Err⟩, none)
  | _ => none

/-- The function `encodeGRPCConcatResponse`. The type assertion
`response.(addendpoint.ConcatResponse)` panics on any other response. -/
def encodeGRPCConcatResponse (_ctx : Context) (response : Response) :
    Option (pb.ConcatReply × Option GoError) :=
  match response with
  | .concat resp => some (⟨resp.V, err2str resp.Err⟩, none)
  | _ => none

/-! ## The circuit breaker stage of `addendpoint.New`

`circuitbreaker.Gobreaker(gobreaker.NewCircuitBreaker(gobreaker.Settings{}))`
comes from the dependencies `github.com/go-kit/kit/circuitbreaker` and
`github.com/sony/gobreaker`. The definitions below follow those packages with
the defaults that the empty `Settings{}` selects. The clock is explicit: each
`time.Now()` is a time in nanoseconds passed by the caller. -/

/-- The struct `gobreaker.Counts`; the fields are `uint32`. -/
structure Counts where
  Requests : Nat
  TotalSuccesses : Nat
  TotalFailures : Nat
  ConsecutiveSuccesses : Nat
  ConsecutiveFailures : Nat
deriving DecidableEq, Repr

/-- Increment of a `uint32`. -/
def incr32 (n : Nat) : Nat := (n + 1) % 2 ^ 32

/-- The method `Counts.onRequest`. -/
def Counts.onRequest (c : Counts) : Counts := { c with Requests := incr32 c.Requests }

/-- The method `Counts.onSuccess`. -/
def Counts.onSuccess (c : Counts) : Counts :=
  { c with TotalSuccesses := incr32 c.TotalSuccesses,
           ConsecutiveSuccesses := incr32 c.ConsecutiveSuccesses,
           ConsecutiveFailures := 0 }

/-- The method `Counts.onFailure`. -/
def Counts.onFailure (c : Counts) : Counts :=
  { c with TotalFailures := incr32 c.TotalFailures,
           ConsecutiveFailures := incr32 c.ConsecutiveFailures,
           ConsecutiveSuccesses := 0 }

/-- The method `Counts.clear`. -/
def Counts.clear (_c : Counts) : Counts := ⟨0, 0, 0, 0, 0⟩

/-- The type `gobreaker.State`. -/
inductive State where
  | StateClosed
  | StateHalfOpen
  | StateOpen
deriving DecidableEq, Repr

/-- The struct `gobreaker.CircuitBreaker`, without its name, callback and
mutex. `expiry` is `none` for the zero time. -/
structure CircuitBreaker where
  maxRequests : Nat
  interval : Nat
  timeout : Nat
  state : State
  generation : Nat
  counts : Counts
  expiry : Option Nat
deriving DecidableEq, Repr

/-- The default `ReadyToTrip`: more than five consecutive failures. -/
def defaultReadyToTrip (counts : Counts) : Bool := decide (counts.ConsecutiveFailures > 5)

/-- The default `IsSuccessful`: the call succeeded when its error is nil. -/
def defaultIsSuccessful (err : Option GoError) : Bool := err.isNone

/-- The error `gobreaker.ErrOpenState`. -/
def ErrOpenState : GoError := GoError.other "circuit breaker is open"

/-- The error `gobreaker.ErrTooManyRequests`. -/
def ErrTooManyRequests : GoError := GoError.other "too many requests"

/-- The method `toNewGeneration`. -/
def CircuitBreaker.toNewGeneration (cb : CircuitBreaker) (now : Nat) : CircuitBreaker :=
  { cb with
    generation := (cb.generation + 1) % 2 ^ 64,
    counts := cb.counts.clear,
    expiry :=
      match cb.state with
      | .StateClosed => if cb.interval = 0 then none else some (now + cb.interval)
      | .StateOpen => some (now + cb.timeout)
      | .StateHalfOpen => none }

/-- The method `setState`. -/
def CircuitBreaker.setState (cb : CircuitBreaker) (state : State) (now : Nat) : CircuitBreaker :=
  if cb.state = state then cb
  else CircuitBreaker.toNewGeneration { cb with state := state } now

/-- The test `expiry.Before(now)`; the zero time is before every `now`. -/
def expiryBefore (expiry : Option Nat) (now : Nat) : Bool :=
  match expiry with
  | none => true
  | some t => decide (t < now)

/-- The method `currentState`: the breaker after the call; the state and the
generation it returns are the fields of that breaker. -/
def CircuitBreaker.currentState (cb : CircuitBreaker) (now : Nat) : CircuitBreaker :=
  match cb.state with
  | .StateClosed =>
    if cb.expiry.isSome ∧ expiryBefore cb.expiry now = true then cb.toNewGeneration now else cb
  | .StateOpen =>
    if expiryBefore cb.expiry now = true then cb.setState State.StateHalfOpen now else cb
  | .StateHalfOpen => cb

/-- The method `beforeRequest`: the breaker after the call, the generation and
the error. -/
def CircuitBreaker.beforeRequest (cb : CircuitBreaker) (now : Nat) :
    CircuitBreaker × Nat × Option GoError :=
  let cb1 := cb.currentState now
  if cb1.state = State.StateOpen then
    (cb1, cb1.generation, some ErrOpenState)
  else if cb1.state = State.StateHalfOpen ∧ cb1.counts.Requests ≥ cb1.maxRequests then
    (cb1, cb1.generation, some ErrTooManyRequests)
  else
    ({ cb1 with counts := cb1.counts.onRequest }, cb1.generation, none)

/-- The method `onSuccess` of the breaker. -/
def CircuitBreaker.onSuccess (cb : CircuitBreaker) (state : State) (now : Nat) : CircuitBreaker :=
  match state with
  | .StateClosed => { cb with counts := cb.counts.onSuccess }
  | .StateHalfOpen =>
    let cb1 := { cb with counts := cb.counts.onSuccess }
    if cb1.counts.ConsecutiveSuccesses ≥ cb1.maxRequests then cb1.setState State.StateClosed now
    else cb1
  | .StateOpen => cb

/-- The method `onFailure` of the breaker. -/
def CircuitBreaker.onFailure (cb : CircuitBreaker) (state : State) (now : Nat) : CircuitBreaker :=
  match state with
  | .StateClosed =>
    let cb1 := { cb with counts := cb.counts.onFailure }
    if defaultReadyToTrip cb1.counts = true then cb1.setState State.StateOpen now else cb1
  | .StateHalfOpen => cb.setState State.StateOpen now
  | .StateOpen => cb

/-- The method `afterRequest`. -/
def CircuitBreaker.afterRequest (cb : CircuitBreaker) (before : Nat) (success : Bool)
    (now : Nat) : CircuitBreaker :=
  let cb1 := cb.currentState now
  if cb1.generation ≠ before then cb1
  else if success = true then cb1.onSuccess cb1.state now
  else cb1.onFailure cb1.state now

/-- The constructor `gobreaker.NewCircuitBreaker(gobreaker.Settings{})` at
time `now`: one trial request, no counting interval, a timeout of sixty
seconds. -/
def NewCircuitBreaker (now : Nat) : CircuitBreaker :=
  CircuitBreaker.toNewGeneration
    ⟨1, 0, 60 * 10 ^ 9, State.StateClosed, 0, ⟨0, 0, 0, 0, 0⟩, none⟩ now

/-- The method `Execute`: `req` is the call to protect, `tBefore` and `tAfter`
are the clock readings before and after it. The result is the breaker after
the call and what `Execute` returns: a panic of `req` is recorded as a
failure and raised again; a rejected call returns a nil result with the
rejection. -/
def CircuitBreaker.Execute {α : Type} (cb : CircuitBreaker) (tBefore tAfter : Nat)
    (req : Unit → Option (α × Option GoError)) :
    CircuitBreaker × Option (Option α × Option GoError) :=
  match cb.beforeRequest tBefore with
  | (cb1, _, some err) => (cb1, some (none, some err))
  | (cb1, generation, none) =>
    match req () with
    | none => (cb1.afterRequest generation false tAfter, none)
    | some (result, err) =>
      (cb1.afterRequest generation (defaultIsSuccessful err) tAfter, some (some result, err))

/-- The middleware `circuitbreaker.Gobreaker(cb)` around `next`. -/
def Gobreaker (cb : CircuitBreaker) (tBefore tAfter : Nat) (next : Endpoint) (ctx : Context)
    (request : Request) : CircuitBreaker × Option (Option Response × Option GoError) :=
  cb.Execute tBefore tAfter (fun _ => next ctx request)

/-- No failure is recorded between the breaker `cb` and the later breaker `cb1`:
neither failure counter has grown, and a breaker that was not open is not
open. -/
def NoFailureRecorded (cb cb1 : CircuitBreaker) : Prop :=
  cb1.counts.TotalFailures ≤ cb.counts.TotalFailures ∧
  cb1.counts.ConsecutiveFailures ≤ cb.counts.ConsecutiveFailures ∧
  (cb.state ≠ State.StateOpen → cb1.state ≠ State.StateOpen)

/-! ## The rate limiter stage of `addendpoint.New`

`ratelimit.NewErroringLimiter(rate.NewLimiter(...))` comes from the
dependencies `github.com/go-kit/kit/ratelimit` and `golang.org/x/time/rate`.
The token bucket below follows `rate.Limiter` for a finite limit, with exact
arithmetic in place of its `float64`: the limit is a whole number of tokens
per second and tokens are counted in units of `10^-9` token, so that one
nanosecond at one token per second adds one unit. -/

/-- The error `ratelimit.ErrLimited`. -/
def ErrLimited : GoError := GoError.other "rate limit exceeded"

/-- One token, in units of `10^-9` token. -/
def oneToken : Nat := 10 ^ 9

/-- The largest `time.Duration`, which `now.Sub` of the zero time saturates
to. -/
def maxDuration : Nat := 2 ^ 63 - 1

/-- The struct `rate.Limiter`, without its mutex and `lastEvent`. `last` is
`none` for the zero time. -/
structure Limiter where
  limit : Nat
  burst : Nat
  tokens : Nat
  last : Option Nat
deriving DecidableEq, Repr

/-- The constructor `rate.NewLimiter(r, b)`: no tokens yet and the zero time
as `last`, so that the first `advance` fills the bucket. -/
def NewLimiter (r b : Nat) : Limiter := ⟨r, b, 0, none⟩

/-- The method `advance`: the adjusted `last` and the tokens available at
`now`. -/
def Limiter.advance (lim : Limiter) (now : Nat) : Option Nat × Nat :=
  let last :=
    match lim.last with
    | none => none
    | some l => if now < l then some now else some l
  let elapsed :=
    match last with
    | none => maxDuration
    | some l => now - l
  let tokens := lim.tokens + elapsed * lim.limit
  (last, if tokens > lim.burst * oneToken then lim.burst * oneToken else tokens)

/-- The method `Allow`, that is `reserveN(now, 1, 0).ok`: the limiter after
the call and the answer. A token is granted when the burst admits one token
and no wait is needed. -/
def Limiter.Allow (lim : Limiter) (now : Nat) : Limiter × Bool :=
  let (last, tokens) := lim.advance now
  if 1 ≤ lim.burst ∧ oneToken ≤ tokens then
    ({ lim with last := some now, tokens := tokens - oneToken }, true)
  else
    ({ lim with last := last }, false)

/-- The middleware `ratelimit.NewErroringLimiter(limit)` around `next`, with the
clock reading `tAllow` of `limit.Allow()`: the limiter after the call and
what the endpoint returns. A rejected call returns a nil response with
`ErrLimited` and does not call `next`. -/
def NewErroringLimiter (limit : Limiter) (tAllow : Nat) (next : Endpoint) (ctx : Context)
    (request : Request) : Limiter × Option (Option Response × Option GoError) :=
  match limit.Allow tAllow with
  | (limit1, false) => (limit1, some (none, some ErrLimited))
  | (limit1, true) => (limit1, (next ctx request).map (fun out => (some out.1, out.2)))

/-- The breaker and the limiter that `New` creates for one endpoint. -/
structure Stages where
  breaker : CircuitBreaker
  limiter : Limiter
deriving DecidableEq, Repr

/-- The endpoint after the first three assignments of `New`:
`circuitbreaker.Gobreaker(cb)(ratelimit.NewErroringLimiter(limit)(next))`.
The clock is read by the breaker before the call (`tBefore`), by the limiter
(`tAllow`) and by the breaker after the call (`tAfter`). A call that the
breaker rejects does not reach the limiter, whose state is then unchanged. -/
def limitedEndpoint (st : Stages) (tBefore tAllow tAfter : Nat) (next : Endpoint)
    (ctx : Context) (request : Request) :
    Stages × Option (Option Response × Option GoError) :=
  let inner := NewErroringLimiter st.limiter tAllow next ctx request
  let outer := st.breaker.Execute tBefore tAfter (fun _ => inner.2)
  (⟨outer.1, if (st.breaker.beforeRequest tBefore).2.2 = none then inner.1 else st.limiter⟩,
    outer.2.map (fun out => (out.1.join, out.2)))

/-- The stages `New` creates at time `now` for `Sum`: a breaker with default
settings and a limiter of one request per second with burst 1. -/
def NewSumStages (now : Nat) : Stages := ⟨NewCircuitBreaker now, NewLimiter 1 1⟩

/-- The stages `New` creates at time `now` for `Concat`: a breaker with default
settings and a limiter of one request per second with burst 100. -/
def NewConcatStages (now : Nat) : Stages := ⟨NewCircuitBreaker now, NewLimiter 1 100⟩

/-- The field `SumEndPoint` of the set `New(svc, ...)` builds. The tracing,
logging and instrumenting stages around the breaker return what the
breaker stage returns and are left out. -/
def Set.SumEndPoint (svc : Service) (st : Stages) (tBefore tAllow tAfter : Nat)
    (ctx : Context) (request : Request) :
    Stages × Option (Option Response × Option GoError) :=
  limitedEndpoint st tBefore tAllow tAfter (MakeSumEndpoint svc) ctx request

/-- The field `ConcatEndpoint` of the set `New(svc, ...)` builds. The tracing,
logging and instrumenting stages around the breaker return what the
breaker stage returns and are left out. -/
def Set.ConcatEndpoint (svc : Service) (st : Stages) (tBefore tAllow tAfter : Nat)
    (ctx : Context) (request : Request) :
    Stages × Option (Option Response × Option GoError) :=
  limitedEndpoint st tBefore tAllow tAfter (MakeConcatEndpoint svc) ctx request

/-- The state after the first of two `Sum` calls on a new set: the call `5 + 3`,
one millisecond after `New`. -/
def afterFirstSum : Stages :=
  (Set.SumEndPoint NewBasicService (NewSumStages 0) 1000000 1000001 1000002
    Context.background (Request.sum ⟨5, 3⟩)).1

/-- The state after `n` further `Sum` calls `5 + 3`, all two milliseconds after
`New`, on the state `st`. -/
def repeatSum : Nat → Stages → Stages
  | 0, st => st
  | n + 1, st =>
    repeatSum n (Set.SumEndPoint NewBasicService st 2000000 2000001 2000002
      Context.background (Request.sum ⟨5, 3⟩)).1

/-! ## Go integers -/

/-- A result inside the range of `int` is not changed by the wrap-around. -/
theorem wrapInt_of_isInt (x : Int) (h : IsInt x) : wrapInt x = x := by
  unfold IsInt minInt maxInt at h
  unfold wrapInt
  omega

/-- For a positive `b`, the difference `intMax - b` does not wrap. -/
theorem wrapInt_intMax_sub (b : Int) (hb : IsInt b) (hpos : b > 0) :
    wrapInt (intMax - b) = intMax - b := by
  apply wrapInt_of_isInt
  unfold IsInt minInt maxInt intMax at *
  omega

/-- For a negative `b`, the difference `intMin - b` does not wrap. -/
theorem wrapInt_intMin_sub (b : Int) (hb : IsInt b) (hneg : b < 0) :
    wrapInt (intMin - b) = intMin - b := by
  apply wrapInt_of_isInt
  unfold IsInt minInt maxInt intMin intMax at *
  omega

/-! ## The business service -/

/-- C1: on a 64-bit `int`, `basicService.Sum` does not report every sum outside
`[-2^31, 2^31-1]`. At `a = 2^31`, `b = 0` the sum is above `2^31-1`, and at
`a = -2^40`, `b = 1` it is below `-2^31`; in both cases the method returns the
sum with a nil error instead of `ErrIntOverflow`. -/
theorem Sum_large_operand_not_reported (ctx : Context) :
    IsInt 2147483648 ∧ IsInt 0 ∧ (2147483648 + 0 : Int) > 2 ^ 31 - 1 ∧
    basicService.Sum ctx 2147483648 0 = (2147483648, none) ∧
    IsInt (-1099511627776) ∧ IsInt 1 ∧ (-1099511627776 + 1 : Int) < -(2 ^ 31) ∧
    basicService.Sum ctx (-1099511627776) 1 = (-1099511627775, none) := by
  refine ⟨by decide, by decide, by decide, ?_, by decide, by decide, by decide, ?_⟩
  · simp [basicService.Sum, wrapInt]
  · simp [basicService.Sum, wrapInt, intMax]

/-- When both operands are 32-bit values, `basicService.Sum` reports
`ErrIntOverflow` exactly when the sum leaves `[-2^31, 2^31-1]`. -/
theorem Sum_overflow_iff_of_int32 (ctx : Context) (a b : Int)
    (ha : intMin ≤ a ∧ a ≤ intMax) (hb : intMin ≤ b ∧ b ≤ intMax) :
    (basicService.Sum ctx a b).2 = some GoError.ErrIntOverflow ↔
      (a + b > 2 ^ 31 - 1 ∨ a + b < -(2 ^ 31)) := by
  have hbI : IsInt b := by
    unfold IsInt minInt maxInt; unfold intMin intMax at hb; omega
  unfold basicService.Sum
  by_cases h0 : a = 0 ∧ b = 0
  · rw [if_pos h0]
    obtain ⟨rfl, rfl⟩ := h0
    simp
  · rw [if_neg h0]
    rcases lt_trichotomy b 0 with hneg | hz | hpos
    · rw [wrapInt_intMin_sub b hbI hneg]
      unfold intMin intMax at *
      split_ifs with h
      · simp only [true_iff]; omega
      · simp only [reduceCtorEq, false_iff]; omega
    · subst hz
      unfold intMin intMax at *
      split_ifs with h
      · omega
      · simp only [reduceCtorEq, false_iff]; omega
    · rw [wrapInt_intMax_sub b hbI hpos]
      unfold intMin intMax at *
      split_ifs with h
      · simp only [true_iff]; omega
      · simp only [reduceCtorEq, false_iff]; omega

/-- C2: for 64-bit ints `a` and `b` that are not both zero and whose sum lies in
`[-2^31, 2^31-1]`, `basicService.Sum` returns the sum `a + b` and a nil
error. That `a` is a 64-bit int follows from the bounds on `b` and on the
sum. -/
theorem Sum_in_range (ctx : Context) (a b : Int) (hb : IsInt b)
    (hnz : ¬ (a = 0 ∧ b = 0)) (hlo : -(2 ^ 31) ≤ a + b) (hhi : a + b ≤ 2 ^ 31 - 1) :
    basicService.Sum ctx a b = (a + b, none) := by
  have hsum : wrapInt (a + b) = a + b := by
    apply wrapInt_of_isInt
    unfold IsInt minInt maxInt; omega
  unfold basicService.Sum
  rw [if_neg hnz, hsum]
  rcases lt_trichotomy b 0 with hneg | hz | hpos
  · rw [wrapInt_intMin_sub b hb hneg, if_neg]
    unfold intMin intMax; omega
  · subst hz
    rw [if_neg]; omega
  · rw [wrapInt_intMax_sub b hb hpos, if_neg]
    unfold intMin intMax; omega

/-- Instance of `Sum_in_range`: operands far outside the 32-bit range whose sum
is `5`. -/
theorem Sum_in_range_witness :
    basicService.Sum Context.background 1099511627776 (-1099511627771) = (5, none) :=
  Sum_in_range Context.background 1099511627776 (-1099511627771) (by decide) (by decide)
    (by decide) (by decide)

/-- C3: `basicService.Concat` returns the concatenation and a nil error when
`len(a) + len(b) <= 10`, and the empty string with `ErrMaxSizeExceeded`
otherwise. -/
theorem Concat_spec (ctx : Context) (a b : String) :
    (len a + len b ≤ 10 → basicService.Concat ctx a b = (a ++ b, none)) ∧
    (¬ (len a + len b ≤ 10) →
      basicService.Concat ctx a b = ("", some GoError.ErrMaxSizeExceeded)) := by
  unfold basicService.Concat maxLen
  constructor
  · intro h
    rw [if_neg (by omega)]
  · intro h
    rw [if_pos (by omega)]

/-- Instance of `Concat_spec`: ten bytes are accepted. -/
theorem Concat_spec_witness :
    basicService.Concat Context.background "abcde" "fghij" = ("abcde" ++ "fghij", none) :=
  (Concat_spec Context.background "abcde" "fghij").1 (by decide)

/-- C4: `basicService.Sum(ctx, 0, 0)` returns `0` and `ErrTwoZeroes` for every
context; the error is not `ErrIntOverflow`. -/
theorem Sum_two_zeroes (ctx : Context) :
    basicService.Sum ctx 0 0 = (0, some GoError.ErrTwoZeroes) ∧
    (basicService.Sum ctx 0 0).2 ≠ some GoError.ErrIntOverflow := by
  simp [basicService.Sum]

/-! ## The HTTP transport -/

/-- C5: `err2code` is 400 on the three errors of `addservice` and 500 on every
other error value (nil included); it has no other result. -/
theorem err2code_spec (e : Option GoError) :
    ((e = some GoError.ErrTwoZeroes ∨ e = some GoError.ErrIntOverflow ∨
        e = some GoError.ErrMaxSizeExceeded) → err2code e = 400) ∧
    (¬ (e = some GoError.ErrTwoZeroes ∨ e = some GoError.ErrIntOverflow ∨
        e = some GoError.ErrMaxSizeExceeded) → err2code e = 500) ∧
    (err2code e = 400 ∨ err2code e = 500) := by
  rcases e with _ | e
  · simp [err2code, StatusInternalServerError]
  · cases e <;> simp [err2code, StatusBadRequest, StatusInternalServerError]

/-- Instance of `err2code_spec`: an error that is none of the three sentinels,
even with the text of one of them, gives 500. -/
theorem err2code_spec_witness : err2code (some (GoError.other "integer overflow")) = 500 :=
  (err2code_spec (some (GoError.other "integer overflow"))).2.1 (by decide)

/-- C6, as the claim states it, fails: on the truncated body `{` the decoder
returns a non-nil error, and the status `errorEncoder` writes for it is 500,
which is not a 400-class status. -/
theorem decode_error_status_not_4xx :
    (decodeHTTPSumRequest truncatedBodyDecoder Context.background ⟨"\x7b"⟩).2 ≠ none ∧
    ∀ w, errorEncoder Context.background
          (decodeHTTPSumRequest truncatedBodyDecoder Context.background ⟨"\x7b"⟩).2
          ResponseWriter.fresh = some w →
      w.status = some 500 ∧ ¬ ∃ code, w.status = some code ∧ 400 ≤ code ∧ code < 500 := by
  refine ⟨by simp [decodeHTTPSumRequest, truncatedBodyDecoder], ?_⟩
  intro w hw
  simp [decodeHTTPSumRequest, truncatedBodyDecoder, errorEncoder, err2code,
    StatusInternalServerError, ResponseWriter.WriteHeader, ResponseWriter.Encode,
    ResponseWriter.fresh] at hw
  subst hw
  simp

/-- C6, amended: when `encoding/json` rejects the body with an error of text
`msg`, `decodeHTTPSumRequest` and `decodeHTTPConcatRequest` return that error,
which is non-nil, and `errorEncoder` writes for it the status 500 and the
body `{"error": msg}`. -/
theorem decode_error_status (json : JSONDecoder) (ctx : Context) (r : HTTPRequest)
    (w : ResponseWriter) (hw : w.status = none) :
    (∀ msg, (json.decodeSum r.Body).2 = some msg →
      (decodeHTTPSumRequest json ctx r).2 = some (GoError.other msg) ∧
      (decodeHTTPSumRequest json ctx r).2 ≠ none ∧
      errorEncoder ctx (decodeHTTPSumRequest json ctx r).2 w =
        some { w with status := some 500,
                      body := w.body ++ [[("error", JSONValue.str msg)]] }) ∧
    (∀ msg, (json.decodeConcat r.Body).2 = some msg →
      (decodeHTTPConcatRequest json ctx r).2 = some (GoError.other msg) ∧
      (decodeHTTPConcatRequest json ctx r).2 ≠ none ∧
      errorEncoder ctx (decodeHTTPConcatRequest json ctx r).2 w =
        some { w with status := some 500,
                      body := w.body ++ [[("error", JSONValue.str msg)]] }) := by
  constructor
  · intro msg h
    have hd : (decodeHTTPSumRequest json ctx r).2 = some (GoError.other msg) := by
      simp [decodeHTTPSumRequest, h]
    refine ⟨hd, by simp [hd], ?_⟩
    rw [hd]
    simp [errorEncoder, err2code, StatusInternalServerError, ResponseWriter.WriteHeader,
      ResponseWriter.Encode, hw, GoError.Error, errorWrapper.toJSON]
  · intro msg h
    have hd : (decodeHTTPConcatRequest json ctx r).2 = some (GoError.other msg) := by
      simp [decodeHTTPConcatRequest, h]
    refine ⟨hd, by simp [hd], ?_⟩
    rw [hd]
    simp [errorEncoder, err2code, StatusInternalServerError, ResponseWriter.WriteHeader,
      ResponseWriter.Encode, hw, GoError.Error, errorWrapper.toJSON]

/-- Instance of `decode_error_status`: the truncated body `{` of `POST /sum` on a
fresh writer. -/
theorem decode_error_status_witness :
    (decodeHTTPSumRequest truncatedBodyDecoder Context.background ⟨"\x7b"⟩).2 =
        some (GoError.other "unexpected EOF") ∧
    errorEncoder Context.background
        (decodeHTTPSumRequest truncatedBodyDecoder Context.background ⟨"\x7b"⟩).2
        ResponseWriter.fresh =
      some ⟨[], some 500, [[("error", JSONValue.str "unexpected EOF")]]⟩ :=
  have h := (decode_error_status truncatedBodyDecoder Context.background ⟨"\x7b"⟩
    ResponseWriter.fresh rfl).1 "unexpected EOF" rfl
  ⟨h.1, h.2.2⟩

/-- C7: on a writer whose status is not yet written, `encodeHTTPGenericResponse`
writes, for a response whose `Failed()` is the non-nil error `e`, the status
`err2code(e)` and the single body document `{"error": e.Error()}`, and no
success body; for a response without error it writes the single document
`{"v": result}`. A `SumResponse` carrying `ErrTwoZeroes` gives status 400 and
`{"error":"can't sum two zeroes"}`. -/
theorem encodeHTTPGenericResponse_spec (ctx : Context) (w : ResponseWriter)
    (response : Response) (hw : w.status = none) :
    (∀ e, response.Failed = some e →
      encodeHTTPGenericResponse ctx w response =
        some ({ w with status := some (err2code (some e)),
                       body := w.body ++ [[("error", JSONValue.str e.Error)]] }, none)) ∧
    (response.Failed = none →
      encodeHTTPGenericResponse ctx w response =
        some ({ header := (w.HeaderSet "Content-Type" "application/json; charset=utf-8").header,
                status := some 200,
                body := w.body ++ [response.toJSON] }, none) ∧
      response.toJSON =
        match response with
        | .sum r => [("v", JSONValue.num r.V)]
        | .concat r => [("v", JSONValue.str r.V)]) ∧
    encodeHTTPGenericResponse ctx ResponseWriter.fresh
        (Response.sum ⟨0, some GoError.ErrTwoZeroes⟩) =
      some (⟨[], some 400, [[("error", JSONValue.str "can't sum two zeroes")]]⟩, none) := by
  refine ⟨?_, ?_, ?_⟩
  · intro e he
    simp [encodeHTTPGenericResponse, he, errorEncoder, ResponseWriter.WriteHeader,
      ResponseWriter.Encode, hw, errorWrapper.toJSON]
  · intro hn
    constructor
    · simp [encodeHTTPGenericResponse, hn, ResponseWriter.Encode, ResponseWriter.HeaderSet, hw]
    · cases response <;> rfl
  · simp [encodeHTTPGenericResponse, Response.Failed, SumResponse.Failed, errorEncoder,
      ResponseWriter.WriteHeader, ResponseWriter.Encode, ResponseWriter.fresh,
      errorWrapper.toJSON, err2code, StatusBadRequest, GoError.Error]

/-- Instance of `encodeHTTPGenericResponse_spec`: `POST /concat` answering
`ErrMaxSizeExceeded` on a fresh writer. -/
theorem encodeHTTPGenericResponse_spec_witness :
    encodeHTTPGenericResponse Context.background ResponseWriter.fresh
        (Response.concat ⟨"", some GoError.ErrMaxSizeExceeded⟩) =
      some (⟨[], some 400, [[("error", JSONValue.str "result exceeds maximum size")]]⟩,
        none) :=
  (encodeHTTPGenericResponse_spec Context.background ResponseWriter.fresh
    (Response.concat ⟨"", some GoError.ErrMaxSizeExceeded⟩) rfl).1
    GoError.ErrMaxSizeExceeded rfl

/-! ## The gRPC transport -/

/-- C8, as the claim states it, fails: a `SumResponse` whose non-nil error has
the empty text is encoded into a reply with an empty `Err`, the same reply as
for the successful response with the same value. -/
theorem encodeGRPC_empty_text_error :
    (⟨0, some (GoError.other "")⟩ : SumResponse).Err ≠ none ∧
    encodeGRPCSumResponse Context.background (Response.sum ⟨0, some (GoError.other "")⟩) =
      some (⟨0, ""⟩, none) ∧
    encodeGRPCSumResponse Context.background (Response.sum ⟨0, none⟩) =
      some (⟨0, ""⟩, none) := by
  refine ⟨by simp, ?_, ?_⟩ <;> simp [encodeGRPCSumResponse, err2str, GoError.Error]

/-- C8, amended: the reply of `encodeGRPCSumResponse` / `encodeGRPCConcatResponse`
carries the value of `r` and, for a non-nil `r.Err`, the text `r.Err.Error()`;
its `Err` is empty exactly when `r.Err` is nil or has the empty text. For the
three errors of `addservice` the reply's `Err` is not empty. -/
theorem encodeGRPC_spec (ctx : Context) :
    (∀ r : SumResponse, ∃ reply,
      encodeGRPCSumResponse ctx (Response.sum r) = some (reply, none) ∧
      reply.V = r.V ∧
      (∀ e, r.Err = some e → reply.Err = e.Error) ∧
      (reply.Err = "" ↔ (r.Err = none ∨ ∃ e, r.Err = some e ∧ e.Error = "")) ∧
      (r.Err = some GoError.ErrTwoZeroes ∨ r.Err = some GoError.ErrIntOverflow ∨
        r.Err = some GoError.ErrMaxSizeExceeded → reply.Err ≠ "")) ∧
    (∀ r : ConcatResponse, ∃ reply,
      encodeGRPCConcatResponse ctx (Response.concat r) = some (reply, none) ∧
      reply.V = r.V ∧
      (∀ e, r.Err = some e → reply.Err = e.Error) ∧
      (reply.Err = "" ↔ (r.Err = none ∨ ∃ e, r.Err = some e ∧ e.Error = "")) ∧
      (r.Err = some GoError.ErrTwoZeroes ∨ r.Err = some GoError.ErrIntOverflow ∨
        r.Err = some GoError.ErrMaxSizeExceeded → reply.Err ≠ "")) := by
  constructor
  · rintro ⟨v, err⟩
    refine ⟨⟨v, err2str err⟩, rfl, rfl, ?_, ?_, ?_⟩
    · intro e he
      simp only at he
      subst he
      rfl
    · rcases err with _ | e <;> simp [err2str]
    · rintro (h | h | h) <;> simp only at h <;> subst h <;> simp [err2str, GoError.Error]
  · rintro ⟨v, err⟩
    refine ⟨⟨v, err2str err⟩, rfl, rfl, ?_, ?_, ?_⟩
    · intro e he
      simp only at he
      subst he
      rfl
    · rcases err with _ | e <;> simp [err2str]
    · rintro (h | h | h) <;> simp only at h <;> subst h <;> simp [err2str, GoError.Error]

/-! ## The endpoints -/

/-- C9: the response of `MakeSumEndpoint(NewBasicService())` to a `SumRequest`
and of `MakeConcatEndpoint(NewBasicService())` to a `ConcatRequest` has the
zero value (`0`, the empty string) in `V` whenever its `Err` is non-nil. -/
theorem basic_endpoint_zero_value_on_error (ctx : Context) :
    (∀ req : SumRequest, ∃ v err,
      MakeSumEndpoint NewBasicService ctx (Request.sum req) =
        some (Response.sum ⟨v, err⟩, none) ∧
      (err ≠ none → v = 0)) ∧
    (∀ req : ConcatRequest, ∃ v err,
      MakeConcatEndpoint NewBasicService ctx (Request.concat req) =
        some (Response.concat ⟨v, err⟩, none) ∧
      (err ≠ none → v = "")) := by
  constructor
  · intro req
    refine ⟨(basicService.Sum ctx req.A req.B).1, (basicService.Sum ctx req.A req.B).2, rfl, ?_⟩
    unfold basicService.Sum
    split_ifs <;> simp
  · intro req
    refine ⟨(basicService.Concat ctx req.A req.B).1, (basicService.Concat ctx req.A req.B).2,
      rfl, ?_⟩
    unfold basicService.Concat
    split_ifs <;> simp

/-! ## The circuit breaker around an endpoint -/

/-- `NoFailureRecorded` is reflexive. -/
theorem NoFailureRecorded.refl (cb : CircuitBreaker) : NoFailureRecorded cb cb :=
  ⟨le_refl _, le_refl _, id⟩

/-- `NoFailureRecorded` is transitive. -/
theorem NoFailureRecorded.trans {a b c : CircuitBreaker} (h1 : NoFailureRecorded a b)
    (h2 : NoFailureRecorded b c) : NoFailureRecorded a c :=
  ⟨le_trans h2.1 h1.1, le_trans h2.2.1 h1.2.1, fun h => h2.2.2 (h1.2.2 h)⟩

/-- A new generation clears the counters and keeps the state. -/
theorem toNewGeneration_noFailure (cb : CircuitBreaker) (now : Nat) :
    NoFailureRecorded cb (cb.toNewGeneration now) := by
  simp [NoFailureRecorded, CircuitBreaker.toNewGeneration, Counts.clear]

/-- Reading the current state records no failure. -/
theorem currentState_noFailure (cb : CircuitBreaker) (now : Nat) :
    NoFailureRecorded cb (cb.currentState now) := by
  unfold CircuitBreaker.currentState
  split
  · split_ifs
    · exact toNewGeneration_noFailure cb now
    · exact NoFailureRecorded.refl cb
  · rename_i hs
    split_ifs
    · simp [NoFailureRecorded, CircuitBreaker.setState, hs, CircuitBreaker.toNewGeneration,
        Counts.clear]
    · exact NoFailureRecorded.refl cb
  · exact NoFailureRecorded.refl cb

/-- Admitting or rejecting a request records no failure. -/
theorem beforeRequest_noFailure (cb : CircuitBreaker) (now : Nat) :
    NoFailureRecorded cb (cb.beforeRequest now).1 := by
  have h := currentState_noFailure cb now
  unfold CircuitBreaker.beforeRequest
  simp only
  split_ifs
  · exact h
  · exact h
  · exact h.trans (by simp [NoFailureRecorded, Counts.onRequest])

/-- Recording a success records no failure. -/
theorem afterRequest_success_noFailure (cb : CircuitBreaker) (before now : Nat) :
    NoFailureRecorded cb (cb.afterRequest before true now) := by
  have h := currentState_noFailure cb now
  unfold CircuitBreaker.afterRequest
  simp only [if_true]
  split_ifs
  · exact h
  · refine h.trans ?_
    generalize cb.currentState now = c
    unfold CircuitBreaker.onSuccess
    split
    · simp [NoFailureRecorded, Counts.onSuccess]
    · rename_i hs
      simp only
      split_ifs
      · simp [NoFailureRecorded, CircuitBreaker.setState, hs, CircuitBreaker.toNewGeneration,
          Counts.clear, Counts.onSuccess]
      · simp [NoFailureRecorded, Counts.onSuccess]
    · exact NoFailureRecorded.refl c

/-- A call that returns a nil endpoint error leaves no failure in the breaker
around it, and when the breaker admits the call it is recorded as a
success. -/
theorem Gobreaker_of_nil_error (cb : CircuitBreaker) (tBefore tAfter : Nat) (next : Endpoint)
    (ctx : Context) (request : Request) (resp : Response)
    (h : next ctx request = some (resp, none)) :
    NoFailureRecorded cb (Gobreaker cb tBefore tAfter next ctx request).1 ∧
    ((cb.beforeRequest tBefore).2.2 = none →
      Gobreaker cb tBefore tAfter next ctx request =
        ((cb.beforeRequest tBefore).1.afterRequest (cb.beforeRequest tBefore).2.1 true tAfter,
          some (some resp, none))) := by
  have hb := beforeRequest_noFailure cb tBefore
  unfold Gobreaker CircuitBreaker.Execute
  rcases hbr : cb.beforeRequest tBefore with ⟨cb1, generation, err⟩
  rw [hbr] at hb
  rcases err with _ | e
  · simp only [h, defaultIsSuccessful, Option.isNone_none, forall_true_left, and_true]
    exact hb.trans (afterRequest_success_noFailure cb1 generation tAfter)
  · simp only [reduceCtorEq, false_implies, and_true]
    exact hb

/-- A call of `Sum` whose sum overflows, through a new breaker: the breaker
stays closed with one request, one success and no failure. -/
theorem Gobreaker_overflow_example :
    Gobreaker (NewCircuitBreaker 0) 1 2 (MakeSumEndpoint NewBasicService) Context.background
        (Request.sum ⟨2147483647, 1⟩) =
      (⟨1, 0, 60 * 10 ^ 9, State.StateClosed, 1, ⟨1, 1, 0, 1, 0⟩, none⟩,
        some (some (Response.sum ⟨0, some GoError.ErrIntOverflow⟩), none)) := by
  decide

/-- C10: for every service `s`, the endpoints of `MakeSumEndpoint(s)` and
`MakeConcatEndpoint(s)` return a nil endpoint error and carry the error of `s`
only in the response, where `Failed()` reports it. So the circuit breaker
around such an endpoint, which counts a call as failed only on a non-nil
endpoint error, records no failure for the call, and records a success when
it admits the call, whatever error `s` returned. -/
theorem business_error_is_breaker_success (s : Service) (ctx : Context) :
    (∀ req : SumRequest,
      MakeSumEndpoint s ctx (Request.sum req) =
        some (Response.sum ⟨(s.Sum ctx req.A req.B).1, (s.Sum ctx req.A req.B).2⟩, none) ∧
      (Response.sum ⟨(s.Sum ctx req.A req.B).1, (s.Sum ctx req.A req.B).2⟩).Failed =
        (s.Sum ctx req.A req.B).2) ∧
    (∀ req : ConcatRequest,
      MakeConcatEndpoint s ctx (Request.concat req) =
        some (Response.concat ⟨(s.Concat ctx req.A req.B).1, (s.Concat ctx req.A req.B).2⟩,
          none) ∧
      (Response.concat ⟨(s.Concat ctx req.A req.B).1, (s.Concat ctx req.A req.B).2⟩).Failed =
        (s.Concat ctx req.A req.B).2) ∧
    (∀ (cb : CircuitBreaker) (tBefore tAfter : Nat) (req : SumRequest),
      NoFailureRecorded cb
        (Gobreaker cb tBefore tAfter (MakeSumEndpoint s) ctx (Request.sum req)).1 ∧
      ((cb.beforeRequest tBefore).2.2 = none →
        Gobreaker cb tBefore tAfter (MakeSumEndpoint s) ctx (Request.sum req) =
          ((cb.beforeRequest tBefore).1.afterRequest (cb.beforeRequest tBefore).2.1 true tAfter,
            some (some (Response.sum ⟨(s.Sum ctx req.A req.B).1, (s.Sum ctx req.A req.B).2⟩),
              none)))) ∧
    (∀ (cb : CircuitBreaker) (tBefore tAfter : Nat) (req : ConcatRequest),
      NoFailureRecorded cb
        (Gobreaker cb tBefore tAfter (MakeConcatEndpoint s) ctx (Request.concat req)).1 ∧
      ((cb.beforeRequest tBefore).2.2 = none →
        Gobreaker cb tBefore tAfter (MakeConcatEndpoint s) ctx (Request.concat req) =
          ((cb.beforeRequest tBefore).1.afterRequest (cb.beforeRequest tBefore).2.1 true tAfter,
            some (some (Response.concat
              ⟨(s.Concat ctx req.A req.B).1, (s.Concat ctx req.A req.B).2⟩), none)))) := by
  refine ⟨fun req => ⟨rfl, rfl⟩, fun req => ⟨rfl, rfl⟩, ?_, ?_⟩
  · intro cb tBefore tAfter req
    exact Gobreaker_of_nil_error cb tBefore tAfter (MakeSumEndpoint s) ctx (Request.sum req)
      _ rfl
  · intro cb tBefore tAfter req
    exact Gobreaker_of_nil_error cb tBefore tAfter (MakeConcatEndpoint s) ctx
      (Request.concat req) _ rfl

/-! ## The rate limiter inside the circuit breaker -/

/-- A call the limiter rejects returns a nil response and `ErrLimited`,
whatever `next` is. -/
theorem NewErroringLimiter_rejected (limit : Limiter) (tAllow : Nat) (next : Endpoint)
    (ctx : Context) (request : Request) (h : (limit.Allow tAllow).2 = false) :
    NewErroringLimiter limit tAllow next ctx request =
      ((limit.Allow tAllow).1, some (none, some ErrLimited)) := by
  unfold NewErroringLimiter
  rcases hA : limit.Allow tAllow with ⟨limit1, b⟩
  rw [hA] at h
  simp only at h
  subst h
  rfl

/-- A closed breaker without counting interval admits every request. -/
theorem beforeRequest_closed (cb : CircuitBreaker) (now : Nat)
    (hs : cb.state = State.StateClosed) (he : cb.expiry = none) :
    cb.beforeRequest now = ({ cb with counts := cb.counts.onRequest }, cb.generation, none) := by
  have hc : cb.currentState now = cb := by
    simp [CircuitBreaker.currentState, hs, he]
  simp [CircuitBreaker.beforeRequest, hc, hs]

/-- A closed breaker without counting interval counts a failed call of its own
generation. -/
theorem afterRequest_failure_closed (cb : CircuitBreaker) (now : Nat)
    (hs : cb.state = State.StateClosed) (he : cb.expiry = none) :
    cb.afterRequest cb.generation false now = cb.onFailure State.StateClosed now := by
  have hc : cb.currentState now = cb := by
    simp [CircuitBreaker.currentState, hs, he]
  simp [CircuitBreaker.afterRequest, hc, hs]

/-- The increment of a `uint32` changes the counter. -/
theorem incr32_ne (n : Nat) : incr32 n ≠ n := by
  unfold incr32
  omega

/-- A failure counted by a closed breaker changes the breaker: the counters grow
by one, or the breaker opens once more than five consecutive failures are
counted. -/
theorem onFailure_closed (cb : CircuitBreaker) (now : Nat)
    (hs : cb.state = State.StateClosed) :
    (incr32 cb.counts.ConsecutiveFailures ≤ 5 →
      cb.onFailure State.StateClosed now = { cb with counts := cb.counts.onFailure }) ∧
    (incr32 cb.counts.ConsecutiveFailures > 5 →
      (cb.onFailure State.StateClosed now).state = State.StateOpen ∧
      (cb.onFailure State.StateClosed now).counts = ⟨0, 0, 0, 0, 0⟩ ∧
      (cb.onFailure State.StateClosed now).expiry = some (now + cb.timeout)) ∧
    ((cb.onFailure State.StateClosed now).counts.TotalFailures ≠ cb.counts.TotalFailures ∨
      (cb.onFailure State.StateClosed now).state ≠ cb.state) := by
  by_cases h : incr32 cb.counts.ConsecutiveFailures ≤ 5
  · have hv : cb.onFailure State.StateClosed now = { cb with counts := cb.counts.onFailure } := by
      simp [CircuitBreaker.onFailure, defaultReadyToTrip, Counts.onFailure, h]
    refine ⟨fun _ => hv, fun h2 => absurd h2 (by omega), Or.inl ?_⟩
    rw [hv]
    exact incr32_ne _
  · have hv : cb.onFailure State.StateClosed now =
        CircuitBreaker.toNewGeneration
          { cb with counts := cb.counts.onFailure, state := State.StateOpen } now := by
      simp [CircuitBreaker.onFailure, defaultReadyToTrip, Counts.onFailure, h,
        CircuitBreaker.setState, hs]
    refine ⟨fun h1 => absurd h1 h, fun _ => ?_, Or.inr ?_⟩
    · rw [hv]
      simp [CircuitBreaker.toNewGeneration, Counts.clear]
    · rw [hv, hs]
      simp [CircuitBreaker.toNewGeneration]

/-- C11, as the claim states it, fails: on a new set, a second `Sum` call one
millisecond after the first is rejected by the rate limiter with `ErrLimited`,
and the breaker counts it: both failure counters go from 0 to 1. After six
such calls the breaker is open and the next call is rejected with
`ErrOpenState`. -/
theorem rate_limited_call_counted_as_failure :
    (afterFirstSum.limiter.Allow 2000001).2 = false ∧
    (Set.SumEndPoint NewBasicService afterFirstSum 2000000 2000001 2000002
        Context.background (Request.sum ⟨5, 3⟩)).2 = some (none, some ErrLimited) ∧
    afterFirstSum.breaker.counts.TotalFailures = 0 ∧
    afterFirstSum.breaker.counts.ConsecutiveFailures = 0 ∧
    (Set.SumEndPoint NewBasicService afterFirstSum 2000000 2000001 2000002
        Context.background (Request.sum ⟨5, 3⟩)).1.breaker.counts.TotalFailures = 1 ∧
    (Set.SumEndPoint NewBasicService afterFirstSum 2000000 2000001 2000002
        Context.background (Request.sum ⟨5, 3⟩)).1.breaker.counts.ConsecutiveFailures = 1 ∧
    afterFirstSum.breaker.state = State.StateClosed ∧
    (repeatSum 6 afterFirstSum).breaker.state = State.StateOpen ∧
    (Set.SumEndPoint NewBasicService (repeatSum 6 afterFirstSum) 2000000 2000001 2000002
        Context.background (Request.sum ⟨5, 3⟩)).2 = some (none, some ErrOpenState) := by
  decide

/-- C11, amended: in the chain of `New`, a call the rate limiter rejects does not
reach the business call: the limiter stage returns a nil response and
`ErrLimited` whatever the endpoint below it is. The breaker that admitted the
call records it as a failure. For a closed breaker without counting interval,
as `New` creates it, the breaker is changed by the call: both failure
counters grow by one, or the breaker opens once more than five consecutive
failures are counted. -/
theorem rate_limited_call_spec (st : Stages) (tBefore tAllow tAfter : Nat) (next : Endpoint)
    (ctx : Context) (request : Request) (hrej : (st.limiter.Allow tAllow).2 = false) :
    NewErroringLimiter st.limiter tAllow next ctx request =
      ((st.limiter.Allow tAllow).1, some (none, some ErrLimited)) ∧
    (∀ next1 : Endpoint,
      NewErroringLimiter st.limiter tAllow next1 ctx request =
        NewErroringLimiter st.limiter tAllow next ctx request) ∧
    ((st.breaker.beforeRequest tBefore).2.2 = none →
      limitedEndpoint st tBefore tAllow tAfter next ctx request =
        (⟨(st.breaker.beforeRequest tBefore).1.afterRequest
            (st.breaker.beforeRequest tBefore).2.1 false tAfter,
          (st.limiter.Allow tAllow).1⟩,
          some (none, some ErrLimited))) ∧
    (st.breaker.state = State.StateClosed → st.breaker.expiry = none →
      (limitedEndpoint st tBefore tAllow tAfter next ctx request).2 =
        some (none, some ErrLimited) ∧
      (limitedEndpoint st tBefore tAllow tAfter next ctx request).1.breaker ≠ st.breaker ∧
      (incr32 st.breaker.counts.ConsecutiveFailures ≤ 5 →
        (limitedEndpoint st tBefore tAllow tAfter next ctx request).1.breaker =
          { st.breaker with counts := st.breaker.counts.onRequest.onFailure }) ∧
      (incr32 st.breaker.counts.ConsecutiveFailures > 5 →
        (limitedEndpoint st tBefore tAllow tAfter next ctx request).1.breaker.state =
          State.StateOpen)) := by
  have hlim := fun n => NewErroringLimiter_rejected st.limiter tAllow n ctx request hrej
  have hadm : (st.breaker.beforeRequest tBefore).2.2 = none →
      limitedEndpoint st tBefore tAllow tAfter next ctx request =
        (⟨(st.breaker.beforeRequest tBefore).1.afterRequest
            (st.breaker.beforeRequest tBefore).2.1 false tAfter,
          (st.limiter.Allow tAllow).1⟩,
          some (none, some ErrLimited)) := by
    intro hb
    unfold limitedEndpoint CircuitBreaker.Execute
    rw [hlim next]
    rcases hbr : st.breaker.beforeRequest tBefore with ⟨cb1, generation, err⟩
    rw [hbr] at hb
    simp only at hb
    subst hb
    simp [defaultIsSuccessful]
  refine ⟨hlim next, fun next1 => by rw [hlim next1, hlim next], hadm, ?_⟩
  intro hs he
  have hb := beforeRequest_closed st.breaker tBefore hs he
  have hout := hadm (by rw [hb])
  rw [hout, hb]
  simp only
  have hs1 : ({ st.breaker with counts := st.breaker.counts.onRequest } : CircuitBreaker).state =
      State.StateClosed := hs
  have he1 : ({ st.breaker with counts := st.breaker.counts.onRequest } : CircuitBreaker).expiry =
      none := he
  have haft := afterRequest_failure_closed
    { st.breaker with counts := st.breaker.counts.onRequest } tAfter hs1 he1
  simp only at haft
  rw [haft]
  have hf := onFailure_closed { st.breaker with counts := st.breaker.counts.onRequest } tAfter hs1
  refine ⟨trivial, ?_, ?_, ?_⟩
  · intro heq
    rcases hf.2.2 with h | h
    · apply h
      rw [heq]
      rfl
    · apply h
      rw [heq]
  · intro h5
    exact hf.1 h5
  · intro h5
    exact (hf.2.1 h5).1

/-- Instance of `rate_limited_call_spec`: the second `Sum` call on a new set, one
millisecond after the first. -/
theorem rate_limited_call_spec_witness :
    (afterFirstSum.limiter.Allow 2000001).2 = false ∧
    (limitedEndpoint afterFirstSum 2000000 2000001 2000002 (MakeSumEndpoint NewBasicService)
        Context.background (Request.sum ⟨5, 3⟩)).2 = some (none, some ErrLimited) ∧
    (limitedEndpoint afterFirstSum 2000000 2000001 2000002 (MakeSumEndpoint NewBasicService)
        Context.background (Request.sum ⟨5, 3⟩)).1.breaker ≠ afterFirstSum.breaker :=
  have h := (rate_limited_call_spec afterFirstSum 2000000 2000001 2000002
    (MakeSumEndpoint NewBasicService) Context.background (Request.sum ⟨5, 3⟩)
    (by decide)).2.2.2 (by decide) (by decide)
  ⟨by decide, h.1, h.2.1⟩

end Addsvc
